import Mathlib

/-!
# user-service: verification of the account state-mutation layer

Shallow embedding of the Go `user-service` repository: the domain model
(`internal/domain/model.go`), the Postgres-backed account store
(`internal/repository/repository.go`) and the account ledger / service layer
(`internal/service/service.go`).

Modelling conventions:
* Timestamps and durations are `Int` nanoseconds, mirroring Go `time.Time`
  (an instant) and `time.Duration` (an `int64` nanosecond count).
* The `users` table is a `List User`.  A SQL `UPDATE ... WHERE cond` is a
  `List.map` that rewrites exactly the rows satisfying `cond`, and
  `RowsAffected` is the length of `List.filter cond`.  `QueryRow` (get by
  id/email) is `List.find?`.  `INSERT` appends; `DELETE` filters out.
  `updated_at = NOW()` sets the row's `updatedAt` to the `now` argument.
* The `id` column is the primary key and `email` is `UNIQUE`
  (migration `000001_create_users_table.up.sql`), so `INSERT` fails when a
  row with the same id or email exists; theorems about a single account carry
  the primary-key fact for that id as the hypothesis
  `db.filter (fun u => u.id == id) = [u]`.
* Go errors are modelled by `UErr`: one constructor per `domain.Err*`
  sentinel, `UErr.adhoc msg` for an error freshly created by `fmt.Errorf`
  (identity-distinct from every sentinel, as in Go), and
  `UErr.wrapped ctx inner` for `fmt.Errorf(ctx ++ ": %w", inner)`.
  `errorsIs` models Go `errors.Is`: it unwraps `wrapped`, an `adhoc` error is
  never `Is` a sentinel (pointer identity), sentinels compare by identity.
* Balances are unbounded `Int`: the store is Postgres, whose `BIGINT`
  arithmetic raises on overflow instead of wrapping, so no modular reduction
  is observable.
-/

/-- Go `time.Time` instant, as integer nanoseconds since the epoch. -/
abbrev Timestamp := Int

/-- Go `time.Duration`, integer nanoseconds. -/
abbrev GoDuration := Int

/-- `time.Hour` in nanoseconds. -/
def nsPerHour : Int := 3600 * 1000000000

/-- `domain.StatusActive`. -/
def StatusActive : String := "active"

/-- `domain.StatusInactive`. -/
def StatusInactive : String := "inactive"

/-- `domain.StatusSuspended`. -/
def StatusSuspended : String := "suspended"

/-- `domain.StatusDeleted`. -/
def StatusDeleted : String := "deleted"

/-- `domain.ValidStatuses()`. -/
def ValidStatuses : List String :=
  [StatusActive, StatusInactive, StatusSuspended, StatusDeleted]

/-- `domain.MaxEmailLength`. -/
def MaxEmailLength : Nat := 255

/-- `domain.MaxNameLength`. -/
def MaxNameLength : Nat := 100

/-- `domain.MaxCoinsAmount` (1 billion). -/
def MaxCoinsAmount : Int := 1000000000

/-- `domain.MaxListLimit`. -/
def MaxListLimit : Int := 100

/-- `domain.MaxListOffset` (10 million). -/
def MaxListOffset : Int := 10000000

/-- `domain.MaxSubscriptionDurationHours` (10 years). -/
def MaxSubscriptionDurationHours : Int := 87600

/-- `domain.User` (model.go): one row of the `users` table. -/
structure User where
  id : String
  email : String
  name : String
  coinsBalance : Int
  totalCoinsPurchased : Int
  isTrial : Bool
  trialEndsAt : Option Timestamp
  hasSubscription : Bool
  subscriptionEndsAt : Option Timestamp
  status : String
  createdAt : Timestamp
  updatedAt : Timestamp
deriving Repr, DecidableEq

/-- `domain.UpdateUserFields` (model.go): `none` means "don't update". -/
structure UpdateUserFields where
  email : Option String
  name : Option String
  status : Option String
deriving Repr, DecidableEq

/-- Go error values reachable in the account layer.  Constructors named
`err*` are the `domain.Err*` sentinels of model.go; `adhoc` is a fresh
`fmt.Errorf(msg)`; `wrapped ctx inner` is `fmt.Errorf(ctx ++ ": %w", inner)`. -/
inductive UErr where
  | errUserNotFound
  | errInsufficientCoinsBalance
  | errSubscriptionAlreadyActive
  | errNoActiveSubscription
  | errInvalidCoinsAmount
  | errInvalidEmailFormat
  | errEmailAlreadyExists
  | errInvalidStatus
  | errInvalidSubscriptionDuration
  | errEmailRequired
  | errNameRequired
  | errUserIDRequired
  | errEmailTooLong
  | errNameTooLong
  | errInvalidUUID
  | errCoinsAmountTooLarge
  | errListLimitTooLarge
  | errListOffsetTooLarge
  | errSubscriptionDurationTooLong
  | adhoc (msg : String)
  | wrapped (ctx : String) (inner : UErr)
deriving Repr, DecidableEq

namespace UErr

/-- The `Error()` message of each modelled Go error (messages from
`domain/model.go`; wrapping mirrors `fmt.Errorf("...: %w", err)`). -/
def message : UErr → String
  | errUserNotFound => "user not found"
  | errInsufficientCoinsBalance => "insufficient coins balance"
  | errSubscriptionAlreadyActive => "subscription already active"
  | errNoActiveSubscription => "user does not have an active subscription"
  | errInvalidCoinsAmount => "coins must be greater than 0"
  | errInvalidEmailFormat => "invalid email format"
  | errEmailAlreadyExists => "user with this email already exists"
  | errInvalidStatus => "invalid status"
  | errInvalidSubscriptionDuration => "subscription duration must be greater than 0"
  | errEmailRequired => "email is required"
  | errNameRequired => "name is required"
  | errUserIDRequired => "user ID is required"
  | errEmailTooLong => "email is too long"
  | errNameTooLong => "name is too long"
  | errInvalidUUID => "invalid user ID format"
  | errCoinsAmountTooLarge => "coins amount is too large"
  | errListLimitTooLarge => "list limit is too large"
  | errListOffsetTooLarge => "list offset is too large"
  | errSubscriptionDurationTooLong => "subscription duration is too long"
  | adhoc msg => msg
  | wrapped ctx inner => ctx ++ ": " ++ inner.message

/-- The innermost (root-cause) message of an error chain: the error kind an
observer recovers by unwrapping all `%w` layers. -/
def rootMessage : UErr → String
  | wrapped _ inner => inner.rootMessage
  | e => e.message

end UErr

/-- Go `errors.Is e target` for a sentinel `target`: unwraps `%w` layers and
compares by identity.  An `adhoc` error produced by `fmt.Errorf` is a fresh
value, never identical to a sentinel, even with an equal message. -/
def errorsIs : UErr → UErr → Bool
  | .wrapped _ inner, target => errorsIs inner target
  | .adhoc _, _ => false
  | e, target => e == target

/-- The `users` table. -/
abbrev Store := List User

/-- The SET clause of `AddCoinsAtomic` applied to one row. -/
def creditRow (coins : Int) (now : Timestamp) (u : User) : User :=
  { u with coinsBalance := u.coinsBalance + coins,
           totalCoinsPurchased := u.totalCoinsPurchased + coins,
           updatedAt := now }

/-- The SET clause of `DeductCoinsAtomic` applied to one row. -/
def debitRow (coins : Int) (now : Timestamp) (u : User) : User :=
  { u with coinsBalance := u.coinsBalance - coins, updatedAt := now }

/-- The SET clause of `ActivateSubscriptionAtomic` applied to one row. -/
def activateRow (isTrial : Bool) (trialEndsAt subscriptionEndsAt : Option Timestamp)
    (now : Timestamp) (u : User) : User :=
  { u with isTrial := isTrial, trialEndsAt := trialEndsAt,
           hasSubscription := true, subscriptionEndsAt := subscriptionEndsAt,
           updatedAt := now }

/-- The SET clause of `RenewSubscriptionAtomic` applied to one row. -/
def renewRow (subscriptionEndsAt : Option Timestamp) (now : Timestamp)
    (u : User) : User :=
  { u with subscriptionEndsAt := subscriptionEndsAt, updatedAt := now }

/-- The SET clause of `postgresUserRepository.Update` applied to one row:
the supplied subset of fields plus `updated_at`. -/
def updateRow (fields : UpdateUserFields) (now : Timestamp) (u : User) : User :=
  { u with email := fields.email.getD u.email,
           name := fields.name.getD u.name,
           status := fields.status.getD u.status,
           updatedAt := now }

/-- `PostgresUserRepository.GetByID`: `SELECT ... WHERE id = $1` via
`QueryRow` (first matching row; `sql.ErrNoRows` becomes `ErrUserNotFound`). -/
def getById (db : Store) (id : String) : Option User :=
  db.find? (fun u => u.id == id)

/-- `PostgresUserRepository.GetByEmail`: `SELECT ... WHERE email = $1`. -/
def getByEmail (db : Store) (email : String) : Option User :=
  db.find? (fun u => u.email == email)

/-- `PostgresUserRepository.Create`: unconditional `INSERT` of the user row;
`created_at`/`updated_at` take their column defaults `NOW()`.  The `id`
primary key and the `UNIQUE` email constraint of the migration make the
insert fail on a duplicate, which `Create` wraps as
`fmt.Errorf("failed to create user: %w", err)`. -/
def repoCreate (db : Store) (user : User) (now : Timestamp) : Except UErr Store :=
  if db.any (fun u => u.id == user.id) || db.any (fun u => u.email == user.email) then
    .error (.wrapped "failed to create user"
      (.adhoc "duplicate key value violates unique constraint"))
  else
    .ok (db ++ [{ user with createdAt := now, updatedAt := now }])

/-- `PostgresUserRepository.AddCoinsAtomic`:
`UPDATE users SET coins_balance = coins_balance + $1,
total_coins_purchased = total_coins_purchased + $1, updated_at = NOW()
WHERE id = $2`; zero rows affected means the user is absent. -/
def addCoinsAtomic (db : Store) (userID : String) (coins : Int) (now : Timestamp) :
    Except UErr Store :=
  if coins ≤ 0 then
    .error (.adhoc "coins must be greater than 0")
  else if (db.filter (fun u => u.id == userID)).length = 0 then
    .error .errUserNotFound
  else
    .ok (db.map (fun u => if u.id == userID then creditRow coins now u else u))

/-- `PostgresUserRepository.DeductCoinsAtomic`:
`UPDATE users SET coins_balance = coins_balance - $1, updated_at = NOW()
WHERE id = $2 AND coins_balance >= $1`; on zero rows affected a follow-up
`GetByID` distinguishes `ErrUserNotFound` from the ad-hoc
`fmt.Errorf("insufficient coins balance")`. -/
def deductCoinsAtomic (db : Store) (userID : String) (coins : Int) (now : Timestamp) :
    Except UErr Store :=
  if coins ≤ 0 then
    .error (.adhoc "coins must be greater than 0")
  else if (db.filter (fun u => u.id == userID && coins ≤ u.coinsBalance)).length = 0 then
    match getById db userID with
    | none => .error .errUserNotFound
    | some _ => .error (.adhoc "insufficient coins balance")
  else
    .ok (db.map (fun u =>
      if u.id == userID && coins ≤ u.coinsBalance then debitRow coins now u else u))

/-- `PostgresUserRepository.ActivateSubscriptionAtomic`:
`UPDATE users SET is_trial = $1, trial_ends_at = $2, has_subscription = true,
subscription_ends_at = $3, updated_at = NOW()
WHERE id = $4 AND has_subscription = false`; on zero rows affected a
follow-up `GetByID` distinguishes `ErrUserNotFound` from the ad-hoc
`fmt.Errorf("subscription already active")`. -/
def activateSubscriptionAtomic (db : Store) (userID : String) (isTrial : Bool)
    (trialEndsAt subscriptionEndsAt : Option Timestamp) (now : Timestamp) :
    Except UErr Store :=
  if (db.filter (fun u => u.id == userID && u.hasSubscription == false)).length = 0 then
    match getById db userID with
    | none => .error .errUserNotFound
    | some _ => .error (.adhoc "subscription already active")
  else
    .ok (db.map (fun u =>
      if u.id == userID && u.hasSubscription == false then
        activateRow isTrial trialEndsAt subscriptionEndsAt now u
      else u))

/-- `PostgresUserRepository.RenewSubscriptionAtomic`:
`UPDATE users SET subscription_ends_at = $1, updated_at = NOW()
WHERE id = $2 AND has_subscription = true`; on zero rows affected a
follow-up `GetByID` distinguishes `ErrUserNotFound` from the ad-hoc
`fmt.Errorf("user does not have an active subscription")`. -/
def renewSubscriptionAtomic (db : Store) (userID : String)
    (subscriptionEndsAt : Option Timestamp) (now : Timestamp) :
    Except UErr Store :=
  if (db.filter (fun u => u.id == userID && u.hasSubscription == true)).length = 0 then
    match getById db userID with
    | none => .error .errUserNotFound
    | some _ => .error (.adhoc "user does not have an active subscription")
  else
    .ok (db.map (fun u =>
      if u.id == userID && u.hasSubscription == true then
        renewRow subscriptionEndsAt now u
      else u))

/-- `PostgresUserRepository.Delete`: `DELETE FROM users WHERE id = $1`;
zero rows affected yields the ad-hoc `fmt.Errorf("user not found")`. -/
def repoDelete (db : Store) (id : String) : Except UErr Store :=
  if (db.filter (fun u => u.id == id)).length = 0 then
    .error (.adhoc "user not found")
  else
    .ok (db.filter (fun u => !(u.id == id)))

/-- `postgresUserRepository.Update` (product.go), the repository wired into
the service by main.go: builds one dynamic
`UPDATE users SET <non-nil subset>, updated_at = NOW() WHERE id = $n` from
the supplied fields; when every field is nil it returns early with no write
and no existence check; zero rows affected yields `domain.ErrUserNotFound`. -/
def repoUpdate (db : Store) (userID : String) (fields : UpdateUserFields)
    (now : Timestamp) : Except UErr Store :=
  if fields.email == none && fields.name == none && fields.status == none then
    .ok db
  else if (db.filter (fun u => u.id == userID)).length = 0 then
    .error .errUserNotFound
  else
    .ok (db.map (fun u => if u.id == userID then updateRow fields now u else u))

/-! ## Validator helpers -/

/-- A character of the email local-part class `[a-zA-Z0-9._%+-]`. -/
def isLocalChar (c : Char) : Bool :=
  c.isAlphanum || c == '.' || c == '_' || c == '%' || c == '+' || c == '-'

/-- A character of a domain segment: `[a-zA-Z0-9-]` (dots separate segments). -/
def isDomainSegChar (c : Char) : Bool :=
  c.isAlphanum || c == '-'

/-- The email regular expression of service.go,
`^[a-zA-Z0-9._%+-]+@[a-zA-Z0-9.-]+\.[a-zA-Z]{2,}$`, as a decision procedure:
no character class contains `@`, so the string must split as
`local@domainPart`; the domain must end in a dot followed by at least two
letters, with a non-empty `[a-zA-Z0-9.-]+` prefix before that dot. -/
def matchEmailRegex (s : String) : Bool :=
  match s.splitOn "@" with
  | [localPart, domainPart] =>
    (!localPart.isEmpty) && localPart.data.all isLocalChar &&
    (match (domainPart.splitOn ".").reverse with
     | tld :: restRev =>
       decide (2 ≤ tld.length) && tld.data.all Char.isAlpha &&
       (!restRev.isEmpty) && restRev ≠ [""] &&
       restRev.all (fun seg => seg.data.all isDomainSegChar)
     | [] => false)
  | _ => false

/-- A hexadecimal digit, as accepted by `github.com/google/uuid` `xtob`. -/
def isHexChar (c : Char) : Bool :=
  ('0' ≤ c && c ≤ '9') || ('a' ≤ c && c ≤ 'f') || ('A' ≤ c && c ≤ 'F')

/-- The canonical 36-character form `xxxxxxxx-xxxx-xxxx-xxxx-xxxxxxxxxxxx`
accepted by the external `github.com/google/uuid` `Parse` — the only form
this service ever generates (`uuid.New().String()`). -/
def uuidParseOk (s : String) : Bool :=
  let cs := s.data
  cs.length == 36 &&
  (List.range 36).all (fun i =>
    if i == 8 || i == 13 || i == 18 || i == 23 then
      cs.getD i ' ' == '-'
    else
      isHexChar (cs.getD i ' '))

/-- `service.ValidateStatus`. -/
def validateStatus (status : String) : Bool :=
  ValidStatuses.any (fun v => status == v)

/-! ## Service layer (`internal/service/service.go`)

Each operation returns the Go `error` result (`none` = success) together with
the resulting database state — the state is returned even on failure so that
partially applied composite operations (bonus credited, guarded transition
rejected) are observable. -/

/-- The `domain.User` literal that `CreateUser` builds: starting balance 200,
72-hour trial window, active status, no subscription (the zero `createdAt`
and `updatedAt` are overwritten by the column defaults on insert). -/
def newUser (email name id : String) (trialEndsAt : Timestamp) : User :=
  { id := id, email := email, name := name,
    coinsBalance := 200, totalCoinsPurchased := 0,
    isTrial := true, trialEndsAt := some trialEndsAt,
    hasSubscription := false, subscriptionEndsAt := none,
    status := StatusActive, createdAt := 0, updatedAt := 0 }

/-- `userService.CreateUser`.  `newId` stands for the freshly generated
`uuid.New().String()`; `now` for `time.Now()`.  Go `len` on a string counts
bytes, hence `String.utf8ByteSize`. -/
def svcCreateUser (db : Store) (email name : String) (newId : String)
    (now : Timestamp) : Option UErr × Store :=
  if email == "" then (some .errEmailRequired, db)
  else if MaxEmailLength < email.utf8ByteSize then (some .errEmailTooLong, db)
  else if name == "" then (some .errNameRequired, db)
  else if MaxNameLength < name.utf8ByteSize then (some .errNameTooLong, db)
  else if !matchEmailRegex email then (some .errInvalidEmailFormat, db)
  else if (getByEmail db email).isSome then (some .errEmailAlreadyExists, db)
  else
    match repoCreate db (newUser email name newId (now + 3 * 24 * nsPerHour)) now with
    | .error e => (some (.wrapped "failed to create user" e), db)
    | .ok db' => (none, db')

/-- `userService.ListUsers`: the bounds actually passed to `repository.List`,
or the out-of-range error. -/
def normalizeListBounds (limit offset : Int) : Except UErr (Int × Int) :=
  let limit := if limit ≤ 0 then 10 else limit
  if MaxListLimit < limit then .error .errListLimitTooLarge
  else
    let offset := if offset < 0 then 0 else offset
    if MaxListOffset < offset then .error .errListOffsetTooLarge
    else .ok (limit, offset)

/-- `PostgresUserRepository.List`: `ORDER BY created_at DESC LIMIT $1
OFFSET $2` — insertion sort by descending `created_at`, then offset/limit. -/
def insertByCreatedDesc (u : User) : List User → List User
  | [] => [u]
  | v :: vs => if u.createdAt ≤ v.createdAt then v :: insertByCreatedDesc u vs
               else u :: v :: vs

/-- Rows returned by `PostgresUserRepository.List`. -/
def repoList (db : Store) (limit offset : Int) : List User :=
  ((db.foldr insertByCreatedDesc []).drop offset.toNat).take limit.toNat

/-- `userService.ListUsers`. -/
def svcListUsers (db : Store) (limit offset : Int) : Except UErr (List User) :=
  match normalizeListBounds limit offset with
  | .error e => .error e
  | .ok (l, o) => .ok (repoList db l o)

/-- `userService.AddCoins`. -/
def svcAddCoins (db : Store) (userID : String) (coins : Int) (now : Timestamp) :
    Option UErr × Store :=
  if userID == "" then (some .errUserIDRequired, db)
  else if !uuidParseOk userID then (some .errInvalidUUID, db)
  else if coins ≤ 0 then (some .errInvalidCoinsAmount, db)
  else if MaxCoinsAmount < coins then (some .errCoinsAmountTooLarge, db)
  else
    match addCoinsAtomic db userID coins now with
    | .error e => (some e, db)
    | .ok db' => (none, db')

/-- `userService.DeductCoins`. -/
def svcDeductCoins (db : Store) (userID : String) (coins : Int) (now : Timestamp) :
    Option UErr × Store :=
  if userID == "" then (some .errUserIDRequired, db)
  else if !uuidParseOk userID then (some .errInvalidUUID, db)
  else if coins ≤ 0 then (some .errInvalidCoinsAmount, db)
  else if MaxCoinsAmount < coins then (some .errCoinsAmountTooLarge, db)
  else
    match deductCoinsAtomic db userID coins now with
    | .error e => (some e, db)
    | .ok db' => (none, db')

/-- `userService.ActivateSubscription`: validates, reads the user, credits the
fixed 5000-coin bonus via `AddCoinsAtomic`, then issues the guarded
`ActivateSubscriptionAtomic` with `isTrial = false` and the user's current
`TrialEndsAt`.  When the guard rejects, the state keeps the already-credited
bonus (`db1`).  The `errors.Is(err, ErrSubscriptionAlreadyActive)` branch
compares the repository's ad-hoc error against the sentinel. -/
def svcActivateSubscription (db : Store) (userID : String) (duration : GoDuration)
    (now : Timestamp) : Option UErr × Store :=
  if userID == "" then (some .errUserIDRequired, db)
  else if !uuidParseOk userID then (some .errInvalidUUID, db)
  else if duration ≤ 0 then (some .errInvalidSubscriptionDuration, db)
  else if MaxSubscriptionDurationHours * nsPerHour < duration then
    (some .errSubscriptionDurationTooLong, db)
  else
    match getById db userID with
    | none => (some (.wrapped "user not found" .errUserNotFound), db)
    | some user =>
      let subscriptionEndsAt : Timestamp := now + duration
      let isTrial : Bool := false
      match addCoinsAtomic db userID 5000 now with
      | .error e => (some (.wrapped "failed to add coins" e), db)
      | .ok db1 =>
        match activateSubscriptionAtomic db1 userID isTrial user.trialEndsAt
            (some subscriptionEndsAt) now with
        | .error e =>
          if errorsIs e .errSubscriptionAlreadyActive then
            (some .errSubscriptionAlreadyActive, db1)
          else
            (some (.wrapped "failed to activate subscription" e), db1)
        | .ok db2 => (none, db2)

/-- `userService.RenewSubscription`: validates, reads the user, computes the
new end — `currentEndsAt + duration` when the current end is strictly in the
future (`time.Time.After`), else `now + duration` — credits the 5000-coin
bonus, then issues the guarded `RenewSubscriptionAtomic`. -/
def svcRenewSubscription (db : Store) (userID : String) (duration : GoDuration)
    (now : Timestamp) : Option UErr × Store :=
  if userID == "" then (some .errUserIDRequired, db)
  else if !uuidParseOk userID then (some .errInvalidUUID, db)
  else if duration ≤ 0 then (some .errInvalidSubscriptionDuration, db)
  else if MaxSubscriptionDurationHours * nsPerHour < duration then
    (some .errSubscriptionDurationTooLong, db)
  else
    match getById db userID with
    | none => (some (.wrapped "user not found" .errUserNotFound), db)
    | some user =>
      let newEndsAt : Timestamp :=
        match user.subscriptionEndsAt with
        | some cur => if now < cur then cur + duration else now + duration
        | none => now + duration
      match addCoinsAtomic db userID 5000 now with
      | .error e => (some (.wrapped "failed to add coins" e), db)
      | .ok db1 =>
        match renewSubscriptionAtomic db1 userID (some newEndsAt) now with
        | .error e => (some (.wrapped "failed to renew subscription" e), db1)
        | .ok db2 => (none, db2)

/-- `userService.DeleteUser`. -/
def svcDeleteUser (db : Store) (id : String) : Option UErr × Store :=
  if id == "" then (some .errUserIDRequired, db)
  else if !uuidParseOk id then (some .errInvalidUUID, db)
  else
    match repoDelete db id with
    | .error e => (some (.wrapped "failed to delete user" e), db)
    | .ok db' => (none, db')

/-- `userService.UpdateUser`: reads the user, validates each supplied field
that differs from the current value, builds the changed-field subset and
applies it through the repository `Update`; returns without writing when
nothing differs. -/
def svcUpdateUser (db : Store) (id : String) (reqEmail reqName : String)
    (reqStatus : Option String) (now : Timestamp) : Option UErr × Store :=
  if id == "" then (some .errUserIDRequired, db)
  else if !uuidParseOk id then (some .errInvalidUUID, db)
  else
    match getById db id with
    | none => (some (.wrapped "user not found" .errUserNotFound), db)
    | some user =>
      if reqEmail != "" && reqEmail != user.email &&
          decide (MaxEmailLength < reqEmail.utf8ByteSize) then
        (some .errEmailTooLong, db)
      else if reqEmail != "" && reqEmail != user.email &&
          !matchEmailRegex reqEmail then
        (some .errInvalidEmailFormat, db)
      else if reqEmail != "" && reqEmail != user.email &&
          (getByEmail db reqEmail).isSome then
        (some .errEmailAlreadyExists, db)
      else
        let emailField : Option String :=
          if reqEmail != "" && reqEmail != user.email then some reqEmail else none
        if reqName != "" && reqName != user.name &&
            decide (MaxNameLength < reqName.utf8ByteSize) then
          (some .errNameTooLong, db)
        else
          let nameField : Option String :=
            if reqName != "" && reqName != user.name then some reqName else none
          match reqStatus with
          | some st =>
            if st != user.status && !validateStatus st then
              (some .errInvalidStatus, db)
            else
              let statusField : Option String :=
                if st != user.status then some st else none
              svcUpdateUserWrite db id
                ⟨emailField, nameField, statusField⟩ now
          | none =>
            svcUpdateUserWrite db id ⟨emailField, nameField, none⟩ now
where
  /-- The tail of `UpdateUser`: skip the write when no field changed, else
  apply the changed subset via the repository `Update`. -/
  svcUpdateUserWrite (db : Store) (id : String) (fields : UpdateUserFields)
      (now : Timestamp) : Option UErr × Store :=
    if fields.email == none && fields.name == none && fields.status == none then
      (none, db)
    else
      match repoUpdate db id fields now with
      | .error e => (some (.wrapped "failed to update user" e), db)
      | .ok db' => (none, db')

/-- `userService.HasAccessByUser` — the Entitlement Evaluator.  Access iff
status is active and (subscription current or trial current); `After(now) ||
Equal(now)` is `now ≤ endsAt`; a `nil` user or a `nil` timestamp never
grants access. -/
def hasAccessByUser (user : Option User) (now : Timestamp) : Bool :=
  match user with
  | none => false
  | some u =>
    if u.status != StatusActive then false
    else if u.hasSubscription &&
        (match u.subscriptionEndsAt with
         | some e => decide (now ≤ e)
         | none => false) then true
    else if u.isTrial &&
        (match u.trialEndsAt with
         | some e => decide (now ≤ e)
         | none => false) then true
    else false

/-! ## Operation sequences

One inbound request to the account layer, with its arguments and the
`time.Now()` instant at which it executes. -/

/-- A single Ledger operation as dispatched by the API shell. -/
inductive Op where
  | createAccount (email name newId : String) (now : Timestamp)
  | addCoins (id : String) (coins : Int) (now : Timestamp)
  | deductCoins (id : String) (coins : Int) (now : Timestamp)
  | activateSubscription (id : String) (duration : GoDuration) (now : Timestamp)
  | renewSubscription (id : String) (duration : GoDuration) (now : Timestamp)
  | updateAccount (id : String) (email name : String) (status : Option String)
      (now : Timestamp)
  | deleteAccount (id : String)
deriving Repr

/-- The database state after one operation (the operation's error result,
if any, is reported to the caller and does not change the state further). -/
def applyOp (db : Store) : Op → Store
  | .createAccount email name newId now => (svcCreateUser db email name newId now).2
  | .addCoins id coins now => (svcAddCoins db id coins now).2
  | .deductCoins id coins now => (svcDeductCoins db id coins now).2
  | .activateSubscription id duration now =>
      (svcActivateSubscription db id duration now).2
  | .renewSubscription id duration now =>
      (svcRenewSubscription db id duration now).2
  | .updateAccount id email name status now =>
      (svcUpdateUser db id email name status now).2
  | .deleteAccount id => (svcDeleteUser db id).2

/-- The database state after a sequence of operations. -/
def applyOps (db : Store) : List Op → Store
  | [] => db
  | op :: ops => applyOps (applyOp db op) ops

/-- Every account's balance is non-negative. -/
def BalancesNonneg (db : Store) : Prop :=
  ∀ u ∈ db, 0 ≤ u.coinsBalance

/-- The Entitlement Evaluator rule as written in spec §4.3: false unless the
status is active; true when a subscription is held and unexpired, or a trial
is held and unexpired; false otherwise.  An absent optional timestamp never
satisfies `endsAt >= now`. -/
def evaluateSpec (u : User) (now : Timestamp) : Bool :=
  if u.status != StatusActive then false
  else if u.hasSubscription && u.subscriptionEndsAt.any (fun e => decide (now ≤ e)) then
    true
  else if u.isTrial && u.trialEndsAt.any (fun e => decide (now ≤ e)) then true
  else false

/-! ### Concrete fixtures used by the witness theorems -/

/-- A canonical-form account id. -/
def sampleId : String := "11111111-2222-4333-8444-555555555555"

/-- A fresh account row: trial active, no subscription, balance 10. -/
def sampleUser : User :=
  { id := sampleId, email := "alice@example.com", name := "Alice",
    coinsBalance := 10, totalCoinsPurchased := 0,
    isTrial := true, trialEndsAt := some 100,
    hasSubscription := false, subscriptionEndsAt := none,
    status := StatusActive, createdAt := 0, updatedAt := 0 }

/-- The same account after a paid subscription was activated. -/
def sampleSubUser : User :=
  { sampleUser with
    isTrial := false
    hasSubscription := true
    subscriptionEndsAt := some 1000 }

/-! ## Generic store lemmas -/

theorem find?_of_filter_eq_single {p : User → Bool} {db : Store} {u : User}
    (h : db.filter p = [u]) : db.find? p = some u := by
  induction db with
  | nil => simp at h
  | cons v vs ih =>
    by_cases hv : p v
    · rw [List.filter_cons_of_pos hv] at h
      obtain ⟨rfl, -⟩ := List.cons_eq_cons.mp h
      exact List.find?_cons_of_pos _ hv
    · rw [List.filter_cons_of_neg hv] at h
      rw [List.find?_cons_of_neg _ hv]
      exact ih h

theorem eq_of_mem_filter_single {p : User → Bool} {db : Store} {u v : User}
    (h : db.filter p = [u]) (hv : v ∈ db) (hpv : p v) : v = u := by
  have : v ∈ db.filter p := List.mem_filter.mpr ⟨hv, hpv⟩
  rw [h] at this
  simpa using this

theorem pid_of_filter_eq_single {p : User → Bool} {db : Store} {u : User}
    (h : db.filter p = [u]) : p u = true := by
  have : u ∈ db.filter p := by rw [h]; simp
  exact (List.mem_filter.mp this).2

theorem mem_of_filter_eq_single {p : User → Bool} {db : Store} {u : User}
    (h : db.filter p = [u]) : u ∈ db := by
  have : u ∈ db.filter p := by rw [h]; simp
  exact (List.mem_filter.mp this).1

theorem filter_map_pres {g : User → User} {p : User → Bool}
    (hpres : ∀ v, p (g v) = p v) (db : Store) :
    (db.map g).filter p = (db.filter p).map g := by
  induction db with
  | nil => rfl
  | cons v vs ih =>
    by_cases hv : p v
    · rw [List.map_cons, List.filter_cons_of_pos (by rw [hpres]; exact hv),
        List.filter_cons_of_pos hv, List.map_cons, ih]
    · rw [List.map_cons, List.filter_cons_of_neg (by rw [hpres]; exact hv),
        List.filter_cons_of_neg hv, ih]

theorem filter_and_single {pid : User → Bool} (cond : User → Bool)
    {db : Store} {u : User} (h : db.filter pid = [u]) :
    db.filter (fun v => pid v && cond v) = if cond u then [u] else [] := by
  induction db with
  | nil => simp at h
  | cons v vs ih =>
    by_cases hv : pid v
    · rw [List.filter_cons_of_pos hv] at h
      obtain ⟨rfl, hnil⟩ := List.cons_eq_cons.mp h
      have hrest : vs.filter (fun v => pid v && cond v) = [] := by
        rw [List.filter_eq_nil_iff] at hnil ⊢
        intro a ha
        simp [hnil a ha]
      by_cases hc : cond v
      · rw [List.filter_cons_of_pos (by simp [hv, hc]), hrest, if_pos hc]
      · rw [List.filter_cons_of_neg (by simp [hv, hc]), hrest, if_neg hc]
    · rw [List.filter_cons_of_neg hv] at h
      rw [List.filter_cons_of_neg (by simp [hv]), ih h]

/-! ## Row-transformer field lemmas -/

@[simp] theorem creditRow_id (coins : Int) (now : Timestamp) (u : User) :
    (creditRow coins now u).id = u.id := rfl

@[simp] theorem creditRow_hasSubscription (coins : Int) (now : Timestamp) (u : User) :
    (creditRow coins now u).hasSubscription = u.hasSubscription := rfl

@[simp] theorem creditRow_coinsBalance (coins : Int) (now : Timestamp) (u : User) :
    (creditRow coins now u).coinsBalance = u.coinsBalance + coins := rfl

@[simp] theorem debitRow_id (coins : Int) (now : Timestamp) (u : User) :
    (debitRow coins now u).id = u.id := rfl

@[simp] theorem debitRow_hasSubscription (coins : Int) (now : Timestamp) (u : User) :
    (debitRow coins now u).hasSubscription = u.hasSubscription := rfl

@[simp] theorem debitRow_coinsBalance (coins : Int) (now : Timestamp) (u : User) :
    (debitRow coins now u).coinsBalance = u.coinsBalance - coins := rfl

@[simp] theorem activateRow_id (isTrial : Bool)
    (tEnds sEnds : Option Timestamp) (now : Timestamp) (u : User) :
    (activateRow isTrial tEnds sEnds now u).id = u.id := rfl

@[simp] theorem activateRow_hasSubscription (isTrial : Bool)
    (tEnds sEnds : Option Timestamp) (now : Timestamp) (u : User) :
    (activateRow isTrial tEnds sEnds now u).hasSubscription = true := rfl

@[simp] theorem activateRow_coinsBalance (isTrial : Bool)
    (tEnds sEnds : Option Timestamp) (now : Timestamp) (u : User) :
    (activateRow isTrial tEnds sEnds now u).coinsBalance = u.coinsBalance := rfl

@[simp] theorem renewRow_id (sEnds : Option Timestamp) (now : Timestamp) (u : User) :
    (renewRow sEnds now u).id = u.id := rfl

@[simp] theorem renewRow_hasSubscription (sEnds : Option Timestamp)
    (now : Timestamp) (u : User) :
    (renewRow sEnds now u).hasSubscription = u.hasSubscription := rfl

@[simp] theorem renewRow_coinsBalance (sEnds : Option Timestamp)
    (now : Timestamp) (u : User) :
    (renewRow sEnds now u).coinsBalance = u.coinsBalance := rfl

@[simp] theorem updateRow_id (fields : UpdateUserFields) (now : Timestamp) (u : User) :
    (updateRow fields now u).id = u.id := rfl

@[simp] theorem updateRow_hasSubscription (fields : UpdateUserFields)
    (now : Timestamp) (u : User) :
    (updateRow fields now u).hasSubscription = u.hasSubscription := rfl

@[simp] theorem updateRow_coinsBalance (fields : UpdateUserFields)
    (now : Timestamp) (u : User) :
    (updateRow fields now u).coinsBalance = u.coinsBalance := rfl

/-! ## Characterizations of the atomic conditional writes under the
primary-key hypothesis for the targeted id -/

theorem addCoinsAtomic_of_pk {db : Store} {u : User} {id : String}
    {coins : Int} (now : Timestamp)
    (hpk : db.filter (fun v => v.id == id) = [u]) (hpos : 0 < coins) :
    addCoinsAtomic db id coins now =
      .ok (db.map (fun v => if v.id == id then creditRow coins now v else v)) := by
  unfold addCoinsAtomic
  rw [if_neg (by omega), hpk]
  simp

theorem addCoinsAtomic_filter {db : Store} {u : User} {id : String}
    (coins : Int) (now : Timestamp)
    (hpk : db.filter (fun v => v.id == id) = [u]) :
    (db.map (fun v => if v.id == id then creditRow coins now v else v)).filter
        (fun v => v.id == id) = [creditRow coins now u] := by
  have hid := pid_of_filter_eq_single hpk
  rw [filter_map_pres (fun v => by by_cases h : v.id == id <;> simp [h]) db, hpk,
    List.map_cons, List.map_nil, hid]
  simp

theorem deductCoinsAtomic_insufficient {db : Store} {u : User} {id : String}
    {coins : Int} (now : Timestamp)
    (hpk : db.filter (fun v => v.id == id) = [u]) (hpos : 0 < coins)
    (hins : u.coinsBalance < coins) :
    deductCoinsAtomic db id coins now = .error (.adhoc "insufficient coins balance") := by
  unfold deductCoinsAtomic
  rw [if_neg (by omega)]
  have hfilter := filter_and_single (fun v => decide (coins ≤ v.coinsBalance)) hpk
  rw [if_neg (by simpa using not_le.mpr hins)] at hfilter
  simp only at hfilter
  unfold getById
  rw [hfilter, find?_of_filter_eq_single hpk]
  simp

theorem deductCoinsAtomic_sufficient {db : Store} {u : User} {id : String}
    {coins : Int} (now : Timestamp)
    (hpk : db.filter (fun v => v.id == id) = [u]) (hpos : 0 < coins)
    (hsuf : coins ≤ u.coinsBalance) :
    deductCoinsAtomic db id coins now =
      .ok (db.map (fun v =>
        if v.id == id && coins ≤ v.coinsBalance then debitRow coins now v else v)) := by
  unfold deductCoinsAtomic
  rw [if_neg (by omega)]
  have hfilter := filter_and_single (fun v => decide (coins ≤ v.coinsBalance)) hpk
  rw [if_pos (by exact decide_eq_true hsuf)] at hfilter
  simp only at hfilter
  rw [hfilter]
  simp

theorem deductCoinsAtomic_filter {db : Store} {u : User} {id : String}
    {coins : Int} (now : Timestamp)
    (hpk : db.filter (fun v => v.id == id) = [u]) (hsuf : coins ≤ u.coinsBalance) :
    (db.map (fun v =>
        if v.id == id && coins ≤ v.coinsBalance then debitRow coins now v else v)).filter
      (fun v => v.id == id) = [debitRow coins now u] := by
  have hid := pid_of_filter_eq_single hpk
  rw [filter_map_pres (fun v => by
        by_cases h : v.id == id <;> by_cases h2 : coins ≤ v.coinsBalance <;> simp [h, h2]) db,
    hpk, List.map_cons, List.map_nil, hid]
  rw [show decide (coins ≤ u.coinsBalance) = true from decide_eq_true hsuf]
  simp

theorem activateSubscriptionAtomic_fresh {db : Store} {u : User} {id : String}
    (isTrial : Bool) (trialEndsAt subscriptionEndsAt : Option Timestamp)
    (now : Timestamp)
    (hpk : db.filter (fun v => v.id == id) = [u]) (hsub : u.hasSubscription = false) :
    activateSubscriptionAtomic db id isTrial trialEndsAt subscriptionEndsAt now =
      .ok (db.map (fun v => if v.id == id && v.hasSubscription == false then
        activateRow isTrial trialEndsAt subscriptionEndsAt now v else v)) := by
  unfold activateSubscriptionAtomic
  have hfilter := filter_and_single (fun v => v.hasSubscription == false) hpk
  rw [if_pos (by simp [hsub])] at hfilter
  simp only at hfilter
  rw [hfilter]
  simp

theorem activateSubscriptionAtomic_already {db : Store} {u : User} {id : String}
    (isTrial : Bool) (trialEndsAt subscriptionEndsAt : Option Timestamp)
    (now : Timestamp)
    (hpk : db.filter (fun v => v.id == id) = [u]) (hsub : u.hasSubscription = true) :
    activateSubscriptionAtomic db id isTrial trialEndsAt subscriptionEndsAt now =
      .error (.adhoc "subscription already active") := by
  unfold activateSubscriptionAtomic
  have hfilter := filter_and_single (fun v => v.hasSubscription == false) hpk
  rw [if_neg (by simp [hsub])] at hfilter
  simp only at hfilter
  unfold getById
  rw [hfilter, find?_of_filter_eq_single hpk]
  simp

theorem activateSubscriptionAtomic_filter {db : Store} {u : User} {id : String}
    (isTrial : Bool) (trialEndsAt subscriptionEndsAt : Option Timestamp)
    (now : Timestamp)
    (hpk : db.filter (fun v => v.id == id) = [u]) (hsub : u.hasSubscription = false) :
    (db.map (fun v => if v.id == id && v.hasSubscription == false then
        activateRow isTrial trialEndsAt subscriptionEndsAt now v else v)).filter
      (fun v => v.id == id) =
      [activateRow isTrial trialEndsAt subscriptionEndsAt now u] := by
  have hid := pid_of_filter_eq_single hpk
  rw [filter_map_pres (fun v => by
        by_cases h : v.id == id <;> by_cases h2 : v.hasSubscription <;> simp [h, h2]) db,
    hpk, List.map_cons, List.map_nil, hid]
  simp [hsub]

theorem renewSubscriptionAtomic_active {db : Store} {u : User} {id : String}
    (subscriptionEndsAt : Option Timestamp) (now : Timestamp)
    (hpk : db.filter (fun v => v.id == id) = [u]) (hsub : u.hasSubscription = true) :
    renewSubscriptionAtomic db id subscriptionEndsAt now =
      .ok (db.map (fun v => if v.id == id && v.hasSubscription == true then
        renewRow subscriptionEndsAt now v else v)) := by
  unfold renewSubscriptionAtomic
  have hfilter := filter_and_single (fun v => v.hasSubscription == true) hpk
  rw [if_pos (by simp [hsub])] at hfilter
  simp only at hfilter
  rw [hfilter]
  simp

theorem renewSubscriptionAtomic_filter {db : Store} {u : User} {id : String}
    (subscriptionEndsAt : Option Timestamp) (now : Timestamp)
    (hpk : db.filter (fun v => v.id == id) = [u]) (hsub : u.hasSubscription = true) :
    (db.map (fun v => if v.id == id && v.hasSubscription == true then
        renewRow subscriptionEndsAt now v else v)).filter (fun v => v.id == id) =
      [renewRow subscriptionEndsAt now u] := by
  have hid := pid_of_filter_eq_single hpk
  rw [filter_map_pres (fun v => by
        by_cases h : v.id == id <;> by_cases h2 : v.hasSubscription <;> simp [h, h2]) db,
    hpk, List.map_cons, List.map_nil, hid]
  simp [hsub]

/-! ## Service-level path characterizations -/

theorem svcActivateSubscription_success {db : Store} {u : User} {id : String}
    {duration : GoDuration} (now : Timestamp)
    (hid : id ≠ "") (huuid : uuidParseOk id = true)
    (hpk : db.filter (fun v => v.id == id) = [u]) (hsub : u.hasSubscription = false)
    (hlo : 0 < duration) (hhi : duration ≤ MaxSubscriptionDurationHours * nsPerHour) :
    (svcActivateSubscription db id duration now).1 = none ∧
    (svcActivateSubscription db id duration now).2.filter (fun v => v.id == id) =
      [activateRow false u.trialEndsAt (some (now + duration)) now
        (creditRow 5000 now u)] := by
  have hpk1 := addCoinsAtomic_filter 5000 now hpk
  have hsub1 : (creditRow 5000 now u).hasSubscription = false := by simp [hsub]
  have hred : svcActivateSubscription db id duration now =
      ((db.map (fun v => if v.id == id then creditRow 5000 now v else v)).map
        (fun v => if v.id == id && v.hasSubscription == false then
          activateRow false u.trialEndsAt (some (now + duration)) now v else v)
        |> (fun db2 => ((none : Option UErr), db2))) := by
    unfold svcActivateSubscription
    rw [if_neg (by simp [hid]), if_neg (by simp [huuid]),
      if_neg (by exact not_le.mpr hlo), if_neg (by exact not_lt.mpr hhi)]
    unfold getById
    rw [find?_of_filter_eq_single hpk]
    dsimp only
    rw [addCoinsAtomic_of_pk now hpk (by norm_num)]
    dsimp only
    rw [activateSubscriptionAtomic_fresh false u.trialEndsAt (some (now + duration)) now
      hpk1 hsub1]
  rw [hred]
  exact ⟨rfl, activateSubscriptionAtomic_filter false u.trialEndsAt
    (some (now + duration)) now hpk1 hsub1⟩

theorem svcActivateSubscription_already {db : Store} {u : User} {id : String}
    {duration : GoDuration} (now : Timestamp)
    (hid : id ≠ "") (huuid : uuidParseOk id = true)
    (hpk : db.filter (fun v => v.id == id) = [u]) (hsub : u.hasSubscription = true)
    (hlo : 0 < duration) (hhi : duration ≤ MaxSubscriptionDurationHours * nsPerHour) :
    svcActivateSubscription db id duration now =
      (some (.wrapped "failed to activate subscription"
          (.adhoc "subscription already active")),
        db.map (fun v => if v.id == id then creditRow 5000 now v else v)) := by
  have hpk1 := addCoinsAtomic_filter 5000 now hpk
  have hsub1 : (creditRow 5000 now u).hasSubscription = true := by simp [hsub]
  unfold svcActivateSubscription
  rw [if_neg (by simp [hid]), if_neg (by simp [huuid]),
    if_neg (by exact not_le.mpr hlo), if_neg (by exact not_lt.mpr hhi)]
  unfold getById
  rw [find?_of_filter_eq_single hpk]
  dsimp only
  rw [addCoinsAtomic_of_pk now hpk (by norm_num)]
  dsimp only
  rw [activateSubscriptionAtomic_already false u.trialEndsAt (some (now + duration)) now
    hpk1 hsub1]
  simp [errorsIs]

theorem svcRenewSubscription_success {db : Store} {u : User} {id : String}
    {duration : GoDuration} (now : Timestamp)
    (hid : id ≠ "") (huuid : uuidParseOk id = true)
    (hpk : db.filter (fun v => v.id == id) = [u]) (hsub : u.hasSubscription = true)
    (hlo : 0 < duration) (hhi : duration ≤ MaxSubscriptionDurationHours * nsPerHour) :
    (svcRenewSubscription db id duration now).1 = none ∧
    (svcRenewSubscription db id duration now).2.filter (fun v => v.id == id) =
      [renewRow (some (match u.subscriptionEndsAt with
          | some cur => if now < cur then cur + duration else now + duration
          | none => now + duration)) now (creditRow 5000 now u)] := by
  have hpk1 := addCoinsAtomic_filter 5000 now hpk
  have hsub1 : (creditRow 5000 now u).hasSubscription = true := by simp [hsub]
  have hred : svcRenewSubscription db id duration now =
      ((db.map (fun v => if v.id == id then creditRow 5000 now v else v)).map
        (fun v => if v.id == id && v.hasSubscription == true then
          renewRow (some (match u.subscriptionEndsAt with
            | some cur => if now < cur then cur + duration else now + duration
            | none => now + duration)) now v else v)
        |> (fun db2 => ((none : Option UErr), db2))) := by
    unfold svcRenewSubscription
    rw [if_neg (by simp [hid]), if_neg (by simp [huuid]),
      if_neg (by exact not_le.mpr hlo), if_neg (by exact not_lt.mpr hhi)]
    unfold getById
    rw [find?_of_filter_eq_single hpk]
    dsimp only
    rw [addCoinsAtomic_of_pk now hpk (by norm_num)]
    dsimp only
    rw [renewSubscriptionAtomic_active _ now hpk1 hsub1]
  rw [hred]
  exact ⟨rfl, renewSubscriptionAtomic_filter _ now hpk1 hsub1⟩

/-! ## Result-state shapes of each service operation (arbitrary arguments) -/

theorem svcAddCoins_snd (db : Store) (id : String) (coins : Int) (now : Timestamp) :
    (svcAddCoins db id coins now).2 = db ∨
    (0 < coins ∧ (svcAddCoins db id coins now).2 =
      db.map (fun v => if v.id == id then creditRow coins now v else v)) := by
  unfold svcAddCoins
  split
  · exact Or.inl rfl
  split
  · exact Or.inl rfl
  split
  · exact Or.inl rfl
  split
  · exact Or.inl rfl
  rename_i hc1 hc2 hc3 hc4
  split
  · exact Or.inl rfl
  rename_i db' heq
  unfold addCoinsAtomic at heq
  split at heq
  · simp at heq
  split at heq
  · simp at heq
  rw [Except.ok.injEq] at heq
  exact Or.inr ⟨by omega, heq ▸ rfl⟩

theorem svcDeductCoins_snd (db : Store) (id : String) (coins : Int) (now : Timestamp) :
    (svcDeductCoins db id coins now).2 = db ∨
    (0 < coins ∧ (svcDeductCoins db id coins now).2 =
      db.map (fun v =>
        if v.id == id && coins ≤ v.coinsBalance then debitRow coins now v else v)) := by
  unfold svcDeductCoins
  split
  · exact Or.inl rfl
  split
  · exact Or.inl rfl
  split
  · exact Or.inl rfl
  split
  · exact Or.inl rfl
  rename_i hc1 hc2 hc3 hc4
  split
  · exact Or.inl rfl
  rename_i db' heq
  unfold deductCoinsAtomic at heq
  split at heq
  · simp at heq
  split at heq
  · split at heq <;> simp at heq
  rw [Except.ok.injEq] at heq
  exact Or.inr ⟨by omega, heq ▸ rfl⟩

theorem svcDeleteUser_snd (db : Store) (id : String) :
    (svcDeleteUser db id).2 = db ∨
    (svcDeleteUser db id).2 = db.filter (fun v => !(v.id == id)) := by
  unfold svcDeleteUser
  split
  · exact Or.inl rfl
  split
  · exact Or.inl rfl
  split
  · exact Or.inl rfl
  rename_i db' heq
  unfold repoDelete at heq
  split at heq
  · simp at heq
  rw [Except.ok.injEq] at heq
  exact Or.inr (heq ▸ rfl)

theorem svcCreateUser_snd (db : Store) (email name newId : String) (now : Timestamp) :
    (svcCreateUser db email name newId now).2 = db ∨
    (db.any (fun u => u.id == newId) = false ∧
     db.any (fun u => u.email == email) = false ∧
     (svcCreateUser db email name newId now).2 =
       db ++ [{ newUser email name newId (now + 3 * 24 * nsPerHour) with
                createdAt := now, updatedAt := now }]) := by
  unfold svcCreateUser
  split
  · exact Or.inl rfl
  split
  · exact Or.inl rfl
  split
  · exact Or.inl rfl
  split
  · exact Or.inl rfl
  split
  · exact Or.inl rfl
  split
  · exact Or.inl rfl
  split
  · exact Or.inl rfl
  rename_i db' heq
  unfold repoCreate at heq
  split at heq
  · simp at heq
  rename_i hdup
  rw [Except.ok.injEq] at heq
  rw [Bool.or_eq_true, not_or] at hdup
  exact Or.inr ⟨by simpa using hdup.1, by simpa using hdup.2, heq ▸ rfl⟩

theorem svcUpdateUserWrite_snd (db : Store) (id : String) (fields : UpdateUserFields)
    (now : Timestamp) :
    (svcUpdateUser.svcUpdateUserWrite db id fields now).2 = db ∨
    (svcUpdateUser.svcUpdateUserWrite db id fields now).2 =
      db.map (fun v => if v.id == id then updateRow fields now v else v) := by
  unfold svcUpdateUser.svcUpdateUserWrite
  split
  · exact Or.inl rfl
  split
  · exact Or.inl rfl
  rename_i db' heq
  unfold repoUpdate at heq
  split at heq
  · rw [Except.ok.injEq] at heq
    exact Or.inl heq.symm
  split at heq
  · simp at heq
  rw [Except.ok.injEq] at heq
  exact Or.inr (heq ▸ rfl)

set_option maxHeartbeats 1000000 in
theorem svcUpdateUser_snd (db : Store) (id : String) (reqEmail reqName : String)
    (reqStatus : Option String) (now : Timestamp) :
    (svcUpdateUser db id reqEmail reqName reqStatus now).2 = db ∨
    ∃ fields, (svcUpdateUser db id reqEmail reqName reqStatus now).2 =
      db.map (fun v => if v.id == id then updateRow fields now v else v) := by
  unfold svcUpdateUser
  dsimp only
  split
  · exact Or.inl rfl
  split
  · exact Or.inl rfl
  split
  · exact Or.inl rfl
  rename_i user huser
  split
  · exact Or.inl rfl
  split
  · exact Or.inl rfl
  split
  · exact Or.inl rfl
  split
  · exact Or.inl rfl
  split
  · split
    · exact Or.inl rfl
    · exact (svcUpdateUserWrite_snd db id _ now).imp (fun h => h) (fun h => ⟨_, h⟩)
  · exact (svcUpdateUserWrite_snd db id _ now).imp (fun h => h) (fun h => ⟨_, h⟩)

theorem svcActivateSubscription_snd (db : Store) (id : String) (duration : GoDuration)
    (now : Timestamp) :
    (svcActivateSubscription db id duration now).2 = db ∨
    ∃ user, getById db id = some user ∧
      ((svcActivateSubscription db id duration now).2 =
         db.map (fun v => if v.id == id then creditRow 5000 now v else v) ∨
       (svcActivateSubscription db id duration now).2 =
         (db.map (fun v => if v.id == id then creditRow 5000 now v else v)).map
           (fun v => if v.id == id && v.hasSubscription == false then
             activateRow false user.trialEndsAt (some (now + duration)) now v else v)) := by
  unfold svcActivateSubscription
  dsimp only
  split
  · exact Or.inl rfl
  split
  · exact Or.inl rfl
  split
  · exact Or.inl rfl
  split
  · exact Or.inl rfl
  split
  · exact Or.inl rfl
  rename_i user huser
  split
  · exact Or.inl rfl
  rename_i db1 heq1
  unfold addCoinsAtomic at heq1
  split at heq1
  · simp at heq1
  split at heq1
  · simp at heq1
  rw [Except.ok.injEq] at heq1
  subst heq1
  split
  · split
    · exact Or.inr ⟨user, huser, Or.inl rfl⟩
    · exact Or.inr ⟨user, huser, Or.inl rfl⟩
  rename_i db2 heq2
  unfold activateSubscriptionAtomic at heq2
  split at heq2
  · split at heq2 <;> simp at heq2
  rw [Except.ok.injEq] at heq2
  subst heq2
  exact Or.inr ⟨user, huser, Or.inr rfl⟩

theorem svcRenewSubscription_snd (db : Store) (id : String) (duration : GoDuration)
    (now : Timestamp) :
    (svcRenewSubscription db id duration now).2 = db ∨
    ∃ user, getById db id = some user ∧
      ((svcRenewSubscription db id duration now).2 =
         db.map (fun v => if v.id == id then creditRow 5000 now v else v) ∨
       (svcRenewSubscription db id duration now).2 =
         (db.map (fun v => if v.id == id then creditRow 5000 now v else v)).map
           (fun v => if v.id == id && v.hasSubscription == true then
             renewRow (some (match user.subscriptionEndsAt with
               | some cur => if now < cur then cur + duration else now + duration
               | none => now + duration)) now v else v)) := by
  unfold svcRenewSubscription
  dsimp only
  split
  · exact Or.inl rfl
  split
  · exact Or.inl rfl
  split
  · exact Or.inl rfl
  split
  · exact Or.inl rfl
  split
  · exact Or.inl rfl
  rename_i user huser
  rcases hc : user.subscriptionEndsAt with _ | cur
  all_goals dsimp only
  case none =>
    split
    · exact Or.inl rfl
    rename_i db1 heq1
    unfold addCoinsAtomic at heq1
    split at heq1
    · simp at heq1
    split at heq1
    · simp at heq1
    rw [Except.ok.injEq] at heq1
    subst heq1
    split
    · exact Or.inr ⟨user, huser, Or.inl rfl⟩
    rename_i db2 heq2
    unfold renewSubscriptionAtomic at heq2
    split at heq2
    · split at heq2 <;> simp at heq2
    rw [Except.ok.injEq] at heq2
    subst heq2
    refine Or.inr ⟨user, huser, Or.inr ?_⟩
    rw [hc]
  case some =>
    split
    · exact Or.inl rfl
    rename_i db1 heq1
    unfold addCoinsAtomic at heq1
    split at heq1
    · simp at heq1
    split at heq1
    · simp at heq1
    rw [Except.ok.injEq] at heq1
    subst heq1
    split
    · exact Or.inr ⟨user, huser, Or.inl rfl⟩
    rename_i db2 heq2
    unfold renewSubscriptionAtomic at heq2
    split at heq2
    · split at heq2 <;> simp at heq2
    rw [Except.ok.injEq] at heq2
    subst heq2
    refine Or.inr ⟨user, huser, Or.inr ?_⟩
    rw [hc]

/-! ## Pointwise invariant preservation -/

theorem mem_map_cond {P : User → Prop} {c : User → Bool} {f : User → User}
    {db : Store} (hf : ∀ v, c v = true → P v → P (f v)) (h : ∀ u ∈ db, P u) :
    ∀ u ∈ db.map (fun v => if c v then f v else v), P u := by
  intro u hu
  obtain ⟨v, hv, rfl⟩ := List.mem_map.mp hu
  by_cases hc : c v
  · rw [if_pos hc]
    exact hf v hc (h v hv)
  · rw [if_neg hc]
    exact h v hv

theorem balancesNonneg_applyOp {db : Store} (op : Op)
    (h : BalancesNonneg db) : BalancesNonneg (applyOp db op) := by
  cases op with
  | createAccount email name newId now =>
    show BalancesNonneg (svcCreateUser db email name newId now).2
    rcases svcCreateUser_snd db email name newId now with hs | ⟨-, -, hs⟩
    · rw [hs]; exact h
    · rw [hs]
      intro u hu
      rcases List.mem_append.mp hu with hu | hu
      · exact h u hu
      · simp only [List.mem_singleton] at hu
        subst hu
        norm_num [newUser]
  | addCoins id coins now =>
    show BalancesNonneg (svcAddCoins db id coins now).2
    rcases svcAddCoins_snd db id coins now with hs | ⟨hpos, hs⟩
    · rw [hs]; exact h
    · rw [hs]
      exact mem_map_cond (fun v _ hv => by simp only [creditRow_coinsBalance]; omega) h
  | deductCoins id coins now =>
    show BalancesNonneg (svcDeductCoins db id coins now).2
    rcases svcDeductCoins_snd db id coins now with hs | ⟨hpos, hs⟩
    · rw [hs]; exact h
    · rw [hs]
      refine mem_map_cond (fun v hc hv => ?_) h
      rw [Bool.and_eq_true] at hc
      have : coins ≤ v.coinsBalance := by simpa using hc.2
      simp only [debitRow_coinsBalance]
      omega
  | activateSubscription id duration now =>
    show BalancesNonneg (svcActivateSubscription db id duration now).2
    rcases svcActivateSubscription_snd db id duration now with hs | ⟨user, -, hs | hs⟩
    · rw [hs]; exact h
    · rw [hs]
      exact mem_map_cond (fun v _ hv => by simp only [creditRow_coinsBalance]; omega) h
    · rw [hs]
      refine mem_map_cond (fun v _ hv => by
          simp only [activateRow_coinsBalance]; exact hv)
        (mem_map_cond (fun v _ hv => by simp only [creditRow_coinsBalance]; omega) h)
  | renewSubscription id duration now =>
    show BalancesNonneg (svcRenewSubscription db id duration now).2
    rcases svcRenewSubscription_snd db id duration now with hs | ⟨user, -, hs | hs⟩
    · rw [hs]; exact h
    · rw [hs]
      exact mem_map_cond (fun v _ hv => by simp only [creditRow_coinsBalance]; omega) h
    · rw [hs]
      refine mem_map_cond (fun v _ hv => by
          simp only [renewRow_coinsBalance]; exact hv)
        (mem_map_cond (fun v _ hv => by simp only [creditRow_coinsBalance]; omega) h)
  | updateAccount id email name status now =>
    show BalancesNonneg (svcUpdateUser db id email name status now).2
    rcases svcUpdateUser_snd db id email name status now with hs | ⟨fields, hs⟩
    · rw [hs]; exact h
    · rw [hs]
      exact mem_map_cond (fun v _ hv => by
        simp only [updateRow_coinsBalance]; exact hv) h
  | deleteAccount id =>
    show BalancesNonneg (svcDeleteUser db id).2
    rcases svcDeleteUser_snd db id with hs | hs
    · rw [hs]; exact h
    · rw [hs]
      intro u hu
      exact h u (List.mem_of_mem_filter hu)

/-! ## Claim theorems -/

/-- **C1.** For every account (the unique row for a valid id) and every
amount `a ∈ [1, MaxCoinsAmount]`, `DeductCoins(id, a)` succeeds iff `a` is at
most the account's current `coinsBalance`; when `a` exceeds the balance it
fails with the insufficient-balance error and the table — hence the balance —
is unchanged; and the insufficient-balance outcome is distinguished from
not-found by the follow-up existence check: on a store without the row the
same zero-rows-affected write yields `ErrUserNotFound` instead. -/
theorem C1_deductCoins_succeeds_iff_sufficient
    (db : Store) (u : User) (id : String) (a : Int) (now : Timestamp)
    (hid : id ≠ "") (huuid : uuidParseOk id = true)
    (hpk : db.filter (fun v => v.id == id) = [u])
    (hlo : 1 ≤ a) (hhi : a ≤ MaxCoinsAmount) :
    ((svcDeductCoins db id a now).1 = none ↔ a ≤ u.coinsBalance) ∧
    (u.coinsBalance < a →
      svcDeductCoins db id a now = (some (.adhoc "insufficient coins balance"), db)) ∧
    (a ≤ u.coinsBalance →
      (svcDeductCoins db id a now).1 = none ∧
      getById (svcDeductCoins db id a now).2 id =
        some { u with coinsBalance := u.coinsBalance - a, updatedAt := now }) ∧
    (∀ db0 : Store, getById db0 id = none →
      svcDeductCoins db0 id a now = (some .errUserNotFound, db0)) := by
  have h1 : ∀ db1 : Store, svcDeductCoins db1 id a now =
      match deductCoinsAtomic db1 id a now with
      | .error e => (some e, db1)
      | .ok db' => (none, db') := by
    intro db1
    unfold svcDeductCoins
    rw [if_neg (by simp [hid]), if_neg (by simp [huuid]), if_neg (by omega),
      if_neg (by omega)]
  have hins : u.coinsBalance < a →
      svcDeductCoins db id a now = (some (.adhoc "insufficient coins balance"), db) := by
    intro h
    rw [h1, deductCoinsAtomic_insufficient now hpk (by omega) h]
  have hsuf : a ≤ u.coinsBalance →
      (svcDeductCoins db id a now).1 = none ∧
      getById (svcDeductCoins db id a now).2 id =
        some { u with coinsBalance := u.coinsBalance - a, updatedAt := now } := by
    intro h
    rw [h1, deductCoinsAtomic_sufficient now hpk (by omega) h]
    exact ⟨rfl, find?_of_filter_eq_single (deductCoinsAtomic_filter now hpk h)⟩
  refine ⟨?_, hins, hsuf, ?_⟩
  · constructor
    · intro hnone
      by_contra hcon
      rw [(hins (by omega))] at hnone
      simp at hnone
    · intro h
      exact (hsuf h).1
  · intro db0 h0
    have hfilter : db0.filter (fun v => v.id == id && a ≤ v.coinsBalance) = [] := by
      rw [List.filter_eq_nil_iff]
      intro v hv
      have := List.find?_eq_none.mp h0 v hv
      simp at this
      simp [this]
    rw [h1]
    unfold deductCoinsAtomic
    rw [if_neg (by omega)]
    simp only at hfilter
    rw [hfilter]
    unfold getById at h0 ⊢
    rw [h0]
    simp

/-- Witness for C1: on a one-row table with balance 10, deducting 7 succeeds
and deducting 11 would not (`11 ≤ 10` is false). -/
theorem C1_witness :
    sampleId ≠ "" ∧ uuidParseOk sampleId = true ∧
    (((svcDeductCoins [sampleUser] sampleId 7 50).1 = none ↔
        (7 : Int) ≤ sampleUser.coinsBalance) ∧
      ¬((11 : Int) ≤ sampleUser.coinsBalance)) := by
  refine ⟨by decide, by decide, ?_, by decide⟩
  exact (C1_deductCoins_succeeds_iff_sufficient [sampleUser] sampleUser sampleId 7 50
    (by decide) (by decide) (by decide) (by decide) (by decide)).1

/-- No single Ledger operation turns an existing row's `hasSubscription` from
`true` back to `false`: any row for `id0` present after the operation still
has the latch set. -/
theorem latch_preserved_applyOp {db : Store} {u : User} {id0 : String}
    (hpk : db.filter (fun v => v.id == id0) = [u]) (hlatch : u.hasSubscription = true)
    (op : Op) :
    ∀ u' ∈ applyOp db op, u'.id = id0 → u'.hasSubscription = true := by
  have huid : u.id = id0 := by
    have := pid_of_filter_eq_single hpk
    simpa using this
  have hbase : ∀ v ∈ db, v.id = id0 → v.hasSubscription = true := by
    intro v hv hvid
    have := eq_of_mem_filter_single hpk hv (by simp [hvid])
    subst this
    exact hlatch
  have hcredit : ∀ (coins : Int) (now : Timestamp) (db0 : Store),
      (∀ v ∈ db0, v.id = id0 → v.hasSubscription = true) →
      ∀ u' ∈ db0.map (fun v => if v.id == id0 then creditRow coins now v else v),
        u'.id = id0 → u'.hasSubscription = true := by
    intro coins now db0 h0
    refine mem_map_cond (P := fun v => v.id = id0 → v.hasSubscription = true)
      (fun v _ hv hid => ?_) h0
    rw [creditRow_hasSubscription]
    exact hv (by simpa using hid)
  cases op with
  | createAccount email name newId now =>
    show ∀ u' ∈ (svcCreateUser db email name newId now).2, _
    rcases svcCreateUser_snd db email name newId now with hs | ⟨hany, -, hs⟩
    · rw [hs]; exact hbase
    · rw [hs]
      intro u' hu' hid
      rcases List.mem_append.mp hu' with hu' | hu'
      · exact hbase u' hu' hid
      · simp only [List.mem_singleton] at hu'
        subst hu'
        simp only [newUser] at hid
        exfalso
        have : db.any (fun x => x.id == newId) = true :=
          List.any_eq_true.mpr ⟨u, mem_of_filter_eq_single hpk, by simp [huid, hid]⟩
        rw [hany] at this
        exact Bool.false_ne_true this
  | addCoins id coins now =>
    show ∀ u' ∈ (svcAddCoins db id coins now).2, _
    rcases svcAddCoins_snd db id coins now with hs | ⟨-, hs⟩
    · rw [hs]; exact hbase
    · rw [hs]
      refine mem_map_cond (P := fun v => v.id = id0 → v.hasSubscription = true)
        (fun v _ hv hid => ?_) hbase
      rw [creditRow_hasSubscription]
      exact hv (by simpa using hid)
  | deductCoins id coins now =>
    show ∀ u' ∈ (svcDeductCoins db id coins now).2, _
    rcases svcDeductCoins_snd db id coins now with hs | ⟨-, hs⟩
    · rw [hs]; exact hbase
    · rw [hs]
      refine mem_map_cond (P := fun v => v.id = id0 → v.hasSubscription = true)
        (fun v _ hv hid => ?_) hbase
      rw [debitRow_hasSubscription]
      exact hv (by simpa using hid)
  | activateSubscription id duration now =>
    show ∀ u' ∈ (svcActivateSubscription db id duration now).2, _
    rcases svcActivateSubscription_snd db id duration now with hs | ⟨user, -, hs | hs⟩
    · rw [hs]; exact hbase
    · rw [hs]
      refine mem_map_cond (P := fun v => v.id = id0 → v.hasSubscription = true)
        (fun v _ hv hid => ?_) hbase
      rw [creditRow_hasSubscription]
      exact hv (by simpa using hid)
    · rw [hs]
      refine mem_map_cond (P := fun v => v.id = id0 → v.hasSubscription = true)
        (fun v _ hv hid => ?_) ?_
      · rw [activateRow_hasSubscription]
      · refine mem_map_cond (P := fun v => v.id = id0 → v.hasSubscription = true)
          (fun v _ hv hid => ?_) hbase
        rw [creditRow_hasSubscription]
        exact hv (by simpa using hid)
  | renewSubscription id duration now =>
    show ∀ u' ∈ (svcRenewSubscription db id duration now).2, _
    rcases svcRenewSubscription_snd db id duration now with hs | ⟨user, -, hs | hs⟩
    · rw [hs]; exact hbase
    · rw [hs]
      refine mem_map_cond (P := fun v => v.id = id0 → v.hasSubscription = true)
        (fun v _ hv hid => ?_) hbase
      rw [creditRow_hasSubscription]
      exact hv (by simpa using hid)
    · rw [hs]
      refine mem_map_cond (P := fun v => v.id = id0 → v.hasSubscription = true)
        (fun v _ hv hid => ?_) ?_
      · rw [renewRow_hasSubscription]
        exact hv (by simpa using hid)
      · refine mem_map_cond (P := fun v => v.id = id0 → v.hasSubscription = true)
          (fun v _ hv hid => ?_) hbase
        rw [creditRow_hasSubscription]
        exact hv (by simpa using hid)
  | updateAccount id email name status now =>
    show ∀ u' ∈ (svcUpdateUser db id email name status now).2, _
    rcases svcUpdateUser_snd db id email name status now with hs | ⟨fields, hs⟩
    · rw [hs]; exact hbase
    · rw [hs]
      refine mem_map_cond (P := fun v => v.id = id0 → v.hasSubscription = true)
        (fun v _ hv hid => ?_) hbase
      rw [updateRow_hasSubscription]
      exact hv (by simpa using hid)
  | deleteAccount id =>
    show ∀ u' ∈ (svcDeleteUser db id).2, _
    rcases svcDeleteUser_snd db id with hs | hs
    · rw [hs]; exact hbase
    · rw [hs]
      intro u' hu' hid
      exact hbase u' (List.mem_of_mem_filter hu') hid

/-- **C2.** Starting from any table state in which every account's balance is
non-negative, no sequence of Ledger operations (create, add coins, deduct
coins, activate, renew, update, delete) can produce an account whose
`coinsBalance` is negative. -/
theorem C2_balances_never_negative (db : Store) (ops : List Op)
    (h : BalancesNonneg db) : BalancesNonneg (applyOps db ops) := by
  induction ops generalizing db with
  | nil => exact h
  | cons op ops ih => exact ih (applyOp db op) (balancesNonneg_applyOp op h)

/-- Witness for C2: a concrete non-negative one-row table stays non-negative
under a concrete operation sequence. -/
theorem C2_witness :
    BalancesNonneg [sampleUser] ∧
    BalancesNonneg (applyOps [sampleUser]
      [Op.addCoins sampleId 5 1, Op.deductCoins sampleId 15 2,
       Op.activateSubscription sampleId 10 3, Op.deleteAccount sampleId]) :=
  ⟨by unfold BalancesNonneg; decide, C2_balances_never_negative [sampleUser]
    [Op.addCoins sampleId 5 1, Op.deductCoins sampleId 15 2,
     Op.activateSubscription sampleId 10 3, Op.deleteAccount sampleId]
    (by unfold BalancesNonneg; decide)⟩

/-- **C3.** `ActivateSubscription` succeeds at most once per account: the
first activation on a latch-free account succeeds and sets
`hasSubscription = true`; on any state in which the account's row has the
latch set, a further activation fails with an error whose root cause is the
already-active message (the AlreadyActive kind) and the latch remains set;
and no Ledger operation at all turns an existing row's latch from `true`
back to `false`. -/
theorem C3_activate_at_most_once
    (db : Store) (u : User) (id : String) (d d2 : GoDuration) (now now2 : Timestamp)
    (hid : id ≠ "") (huuid : uuidParseOk id = true)
    (hpk : db.filter (fun v => v.id == id) = [u]) (hsub : u.hasSubscription = false)
    (hlo : 0 < d) (hhi : d ≤ MaxSubscriptionDurationHours * nsPerHour)
    (hlo2 : 0 < d2) (hhi2 : d2 ≤ MaxSubscriptionDurationHours * nsPerHour) :
    (svcActivateSubscription db id d now).1 = none ∧
    (∀ u1, getById (svcActivateSubscription db id d now).2 id = some u1 →
      u1.hasSubscription = true) ∧
    (∀ (db' : Store) (u' : User),
      db'.filter (fun v => v.id == id) = [u'] → u'.hasSubscription = true →
      ∃ e, (svcActivateSubscription db' id d2 now2).1 = some e ∧
        e.rootMessage = UErr.errSubscriptionAlreadyActive.message ∧
        ∀ u2, getById (svcActivateSubscription db' id d2 now2).2 id = some u2 →
          u2.hasSubscription = true) ∧
    (∀ (db' : Store) (u' : User),
      db'.filter (fun v => v.id == id) = [u'] → u'.hasSubscription = true →
      ∀ (op : Op), ∀ u2 ∈ applyOp db' op, u2.id = id →
        u2.hasSubscription = true) := by
  obtain ⟨hok, hfilter1⟩ :=
    svcActivateSubscription_success now hid huuid hpk hsub hlo hhi
  refine ⟨hok, ?_, ?_, ?_⟩
  · intro u1 hu1
    rw [getById, find?_of_filter_eq_single hfilter1] at hu1
    rw [Option.some.injEq] at hu1
    subst hu1
    rfl
  · intro db' u' hpk' hsub'
    have hred := svcActivateSubscription_already now2 hid huuid hpk' hsub' hlo2 hhi2
    refine ⟨.wrapped "failed to activate subscription"
      (.adhoc "subscription already active"), by rw [hred], rfl, ?_⟩
    intro u2 hu2
    rw [hred] at hu2
    rw [getById, find?_of_filter_eq_single (addCoinsAtomic_filter 5000 now2 hpk')] at hu2
    rw [Option.some.injEq] at hu2
    subst hu2
    rw [creditRow_hasSubscription]
    exact hsub'
  · intro db' u' hpk' hsub' op
    exact latch_preserved_applyOp hpk' hsub' op

/-- Witness for C3: a concrete first activation on the sample account
succeeds, and on the already-activated variant the follow-up call fails with
the already-active root cause. -/
theorem C3_witness :
    sampleUser.hasSubscription = false ∧
    [sampleSubUser].filter (fun v => v.id == sampleId) = [sampleSubUser] ∧
    sampleSubUser.hasSubscription = true ∧
    ((svcActivateSubscription [sampleUser] sampleId 10 1).1 = none ∧
     ∃ e, (svcActivateSubscription [sampleSubUser] sampleId 20 2).1 = some e ∧
       e.rootMessage = UErr.errSubscriptionAlreadyActive.message ∧
       ∀ u2, getById (svcActivateSubscription [sampleSubUser] sampleId 20 2).2
           sampleId = some u2 → u2.hasSubscription = true) := by
  have h := C3_activate_at_most_once [sampleUser] sampleUser sampleId 10 20 1 2
    (by decide) (by decide) (by decide) (by decide) (by decide) (by decide)
    (by decide) (by decide)
  exact ⟨by decide, by decide, by decide,
    h.1, h.2.2.1 [sampleSubUser] sampleSubUser (by decide) (by decide)⟩

/-- **C4.** For an account with an active subscription latch and a valid
duration, a successful `RenewSubscription` sets the new `subscriptionEndsAt`
to `currentEndsAt + duration` when the current end lies strictly in the
future (renewal never shortens an active subscription), and to
`now + duration` otherwise (an expired or absent end restarts from now). -/
theorem C4_renew_extends_or_restarts
    (db : Store) (u : User) (id : String) (duration : GoDuration) (now : Timestamp)
    (hid : id ≠ "") (huuid : uuidParseOk id = true)
    (hpk : db.filter (fun v => v.id == id) = [u]) (hsub : u.hasSubscription = true)
    (hlo : 0 < duration) (hhi : duration ≤ MaxSubscriptionDurationHours * nsPerHour) :
    (svcRenewSubscription db id duration now).1 = none ∧
    (∀ cur, u.subscriptionEndsAt = some cur → now < cur →
      ∃ u', getById (svcRenewSubscription db id duration now).2 id = some u' ∧
        u'.subscriptionEndsAt = some (cur + duration)) ∧
    (∀ cur, u.subscriptionEndsAt = some cur → ¬(now < cur) →
      ∃ u', getById (svcRenewSubscription db id duration now).2 id = some u' ∧
        u'.subscriptionEndsAt = some (now + duration)) ∧
    (u.subscriptionEndsAt = none →
      ∃ u', getById (svcRenewSubscription db id duration now).2 id = some u' ∧
        u'.subscriptionEndsAt = some (now + duration)) := by
  obtain ⟨hok, hfilter⟩ :=
    svcRenewSubscription_success now hid huuid hpk hsub hlo hhi
  have hget := find?_of_filter_eq_single hfilter
  refine ⟨hok, ?_, ?_, ?_⟩
  · intro cur hc hfut
    refine ⟨_, hget, ?_⟩
    rw [hc]
    simp [renewRow, if_pos hfut]
  · intro cur hc hpast
    refine ⟨_, hget, ?_⟩
    rw [hc]
    simp [renewRow, if_neg hpast]
  · intro hc
    refine ⟨_, hget, ?_⟩
    rw [hc]
    simp [renewRow]

/-- Witness for C4: renewing the sample subscribed account
(`subscriptionEndsAt = 1000`) at `now = 8` with duration 50 succeeds, and the
future-end branch applies (1000 is strictly in the future), extending the end
to 1050. -/
theorem C4_witness :
    sampleSubUser.hasSubscription = true ∧
    sampleSubUser.subscriptionEndsAt = some 1000 ∧ (8 : Int) < 1000 ∧
    ∃ u', getById (svcRenewSubscription [sampleSubUser] sampleId 50 8).2
        sampleId = some u' ∧
      u'.subscriptionEndsAt = some (1000 + 50) := by
  have h := C4_renew_extends_or_restarts [sampleSubUser] sampleSubUser sampleId 50 8
    (by decide) (by decide) (by decide) (by decide) (by decide) (by decide)
  exact ⟨by decide, by decide, by decide, h.2.1 1000 (by decide) (by decide)⟩

/-- **C5.** The Entitlement Evaluator `HasAccessByUser` coincides with the
spec's rule: false when status is not active; otherwise true when a held
subscription is unexpired, true when a held trial is unexpired, and false in
all other cases; a missing user never has access. -/
theorem C5_evaluator_matches_spec (u : User) (now : Timestamp) :
    hasAccessByUser (some u) now = evaluateSpec u now ∧
    hasAccessByUser none now = false := by
  constructor
  · unfold hasAccessByUser evaluateSpec
    rcases hs : u.subscriptionEndsAt with _ | se <;>
      rcases ht : u.trialEndsAt with _ | te <;>
        simp [hs, ht, Option.any]
  · rfl

/-- **C6.** For every existing account and every valid amount
`a ∈ [1, MaxCoinsAmount]`, a successful `AddCoins(id, a)` increases both
`coinsBalance` and `totalCoinsPurchased` by exactly `a` and changes no other
field of the account apart from `updatedAt`. -/
theorem C6_addCoins_increments_balance_and_total
    (db : Store) (u : User) (id : String) (a : Int) (now : Timestamp)
    (hid : id ≠ "") (huuid : uuidParseOk id = true)
    (hpk : db.filter (fun v => v.id == id) = [u])
    (hlo : 1 ≤ a) (hhi : a ≤ MaxCoinsAmount) :
    (svcAddCoins db id a now).1 = none ∧
    getById (svcAddCoins db id a now).2 id =
      some { u with coinsBalance := u.coinsBalance + a,
                    totalCoinsPurchased := u.totalCoinsPurchased + a,
                    updatedAt := now } := by
  have hred : svcAddCoins db id a now =
      ((none : Option UErr),
        db.map (fun v => if v.id == id then creditRow a now v else v)) := by
    unfold svcAddCoins
    rw [if_neg (by simp [hid]), if_neg (by simp [huuid]), if_neg (by omega),
      if_neg (by omega), addCoinsAtomic_of_pk now hpk (by omega)]
  rw [hred]
  exact ⟨rfl, find?_of_filter_eq_single (addCoinsAtomic_filter a now hpk)⟩

/-- Witness for C6: adding 5 coins to the sample account (balance 10,
purchased 0) yields balance 15 and purchased 5. -/
theorem C6_witness :
    (svcAddCoins [sampleUser] sampleId 5 9).1 = none ∧
    getById (svcAddCoins [sampleUser] sampleId 5 9).2 sampleId =
      some { sampleUser with coinsBalance := sampleUser.coinsBalance + 5,
                             totalCoinsPurchased := sampleUser.totalCoinsPurchased + 5,
                             updatedAt := 9 } :=
  C6_addCoins_increments_balance_and_total [sampleUser] sampleUser sampleId 5 9
    (by decide) (by decide) (by decide) (by decide) (by decide)

/-- **C7.** The Ledger's `ActivateSubscription` credits the fixed 5000-coin
bonus before the guarded store transition, and the pair is not atomic: when
the guard rejects because the account is already activated, the operation
returns an error but the credited bonus is not reversed — the resulting
state is exactly the old table with the account's balance (and
`totalCoinsPurchased`) increased by 5000 and no subscription field changed. -/
theorem C7_bonus_credited_then_guard_rejects
    (db : Store) (u : User) (id : String) (duration : GoDuration) (now : Timestamp)
    (hid : id ≠ "") (huuid : uuidParseOk id = true)
    (hpk : db.filter (fun v => v.id == id) = [u]) (hsub : u.hasSubscription = true)
    (hlo : 0 < duration) (hhi : duration ≤ MaxSubscriptionDurationHours * nsPerHour) :
    svcActivateSubscription db id duration now =
      (some (.wrapped "failed to activate subscription"
          (.adhoc "subscription already active")),
        db.map (fun v => if v.id == id then creditRow 5000 now v else v)) ∧
    getById (svcActivateSubscription db id duration now).2 id =
      some { u with coinsBalance := u.coinsBalance + 5000,
                    totalCoinsPurchased := u.totalCoinsPurchased + 5000,
                    updatedAt := now } := by
  have hred := svcActivateSubscription_already now hid huuid hpk hsub hlo hhi
  refine ⟨hred, ?_⟩
  rw [hred]
  exact find?_of_filter_eq_single (addCoinsAtomic_filter 5000 now hpk)

/-- Witness for C7: activating the already-subscribed sample account fails,
yet its balance goes from 10 to 5010. -/
theorem C7_witness :
    sampleSubUser.hasSubscription = true ∧
    getById (svcActivateSubscription [sampleSubUser] sampleId 10 4).2 sampleId =
      some { sampleSubUser with
             coinsBalance := sampleSubUser.coinsBalance + 5000,
             totalCoinsPurchased := sampleSubUser.totalCoinsPurchased + 5000,
             updatedAt := 4 } :=
  ⟨by decide, (C7_bonus_credited_then_guard_rejects [sampleSubUser] sampleSubUser
    sampleId 10 4 (by decide) (by decide) (by decide) (by decide) (by decide)
    (by decide)).2⟩

/-- **C8.** `ListUsers` normalizes its bounds: a non-positive limit becomes
the default 10 and a negative offset becomes 0, so the effective bounds lie
in `(0, MaxListLimit]` and `[0, MaxListOffset]`; bounds above the maxima are
rejected with the corresponding out-of-range error; in particular
`limit = 0, offset = -5` proceeds with limit 10 and offset 0. -/
theorem C8_listUsers_clamps_bounds (db : Store) (limit offset : Int) :
    (MaxListLimit < limit →
      svcListUsers db limit offset = .error .errListLimitTooLarge) ∧
    (limit ≤ MaxListLimit → MaxListOffset < offset →
      svcListUsers db limit offset = .error .errListOffsetTooLarge) ∧
    (limit ≤ MaxListLimit → offset ≤ MaxListOffset →
      ∃ l o, normalizeListBounds limit offset = .ok (l, o) ∧
        0 < l ∧ l ≤ MaxListLimit ∧ 0 ≤ o ∧ o ≤ MaxListOffset ∧
        svcListUsers db limit offset = .ok (repoList db l o)) ∧
    normalizeListBounds 0 (-5) = .ok (10, 0) := by
  refine ⟨?_, ?_, ?_, rfl⟩
  · intro h
    simp only [MaxListLimit] at h
    unfold svcListUsers normalizeListBounds
    rw [if_neg (show ¬limit ≤ 0 by omega),
      if_pos (show MaxListLimit < limit by simp only [MaxListLimit]; omega)]
  · intro h1 h2
    simp only [MaxListLimit] at h1
    simp only [MaxListOffset] at h2
    unfold svcListUsers normalizeListBounds
    by_cases hl0 : limit ≤ 0
    · rw [if_pos hl0,
        if_neg (show ¬MaxListLimit < 10 by simp only [MaxListLimit]; omega),
        if_neg (show ¬offset < 0 by omega),
        if_pos (show MaxListOffset < offset by simp only [MaxListOffset]; omega)]
    · rw [if_neg hl0,
        if_neg (show ¬MaxListLimit < limit by simp only [MaxListLimit]; omega),
        if_neg (show ¬offset < 0 by omega),
        if_pos (show MaxListOffset < offset by simp only [MaxListOffset]; omega)]
  · intro h1 h2
    simp only [MaxListLimit] at h1
    simp only [MaxListOffset] at h2
    unfold svcListUsers normalizeListBounds
    by_cases hl0 : limit ≤ 0 <;> by_cases ho0 : offset < 0
    · rw [if_pos hl0,
        if_neg (show ¬MaxListLimit < 10 by simp only [MaxListLimit]; omega),
        if_pos ho0,
        if_neg (show ¬MaxListOffset < 0 by simp only [MaxListOffset]; omega)]
      exact ⟨10, 0, rfl, by omega, by simp only [MaxListLimit]; omega, by omega,
        by simp only [MaxListOffset]; omega, rfl⟩
    · rw [if_pos hl0,
        if_neg (show ¬MaxListLimit < 10 by simp only [MaxListLimit]; omega),
        if_neg ho0,
        if_neg (show ¬MaxListOffset < offset by simp only [MaxListOffset]; omega)]
      exact ⟨10, offset, rfl, by omega, by simp only [MaxListLimit]; omega, by omega,
        by simp only [MaxListOffset]; omega, rfl⟩
    · rw [if_neg hl0,
        if_neg (show ¬MaxListLimit < limit by simp only [MaxListLimit]; omega),
        if_pos ho0,
        if_neg (show ¬MaxListOffset < 0 by simp only [MaxListOffset]; omega)]
      exact ⟨limit, 0, rfl, by omega, by simp only [MaxListLimit]; omega, by omega,
        by simp only [MaxListOffset]; omega, rfl⟩
    · rw [if_neg hl0,
        if_neg (show ¬MaxListLimit < limit by simp only [MaxListLimit]; omega),
        if_neg ho0,
        if_neg (show ¬MaxListOffset < offset by simp only [MaxListOffset]; omega)]
      exact ⟨limit, offset, rfl, by omega, by simp only [MaxListLimit]; omega,
        by omega, by simp only [MaxListOffset]; omega, rfl⟩

/-- Witness for C8: `limit = 0, offset = -5` on a concrete store normalizes
to limit 10, offset 0 instead of failing. -/
theorem C8_witness :
    (0 : Int) ≤ MaxListLimit ∧ (-5 : Int) ≤ MaxListOffset ∧
    ∃ l o, normalizeListBounds 0 (-5) = .ok (l, o) ∧
      0 < l ∧ l ≤ MaxListLimit ∧ 0 ≤ o ∧ o ≤ MaxListOffset ∧
      svcListUsers [sampleUser] 0 (-5) = .ok (repoList [sampleUser] l o) :=
  ⟨by decide, by decide,
    (C8_listUsers_clamps_bounds [sampleUser] 0 (-5)).2.2.1 (by decide) (by decide)⟩

/-- **C9.** A successful `ActivateSubscription` sets `isTrial` to false while
leaving `trialEndsAt` at its previous value: the service passes
`isTrial = false` together with the user's current `TrialEndsAt` into the
guarded store write. -/
theorem C9_activation_clears_trial_flag_keeps_timestamp
    (db : Store) (u : User) (id : String) (duration : GoDuration) (now : Timestamp)
    (hid : id ≠ "") (huuid : uuidParseOk id = true)
    (hpk : db.filter (fun v => v.id == id) = [u]) (hsub : u.hasSubscription = false)
    (hlo : 0 < duration) (hhi : duration ≤ MaxSubscriptionDurationHours * nsPerHour) :
    (svcActivateSubscription db id duration now).1 = none ∧
    ∀ u', getById (svcActivateSubscription db id duration now).2 id = some u' →
      u'.isTrial = false ∧ u'.trialEndsAt = u.trialEndsAt := by
  obtain ⟨hok, hfilter⟩ :=
    svcActivateSubscription_success now hid huuid hpk hsub hlo hhi
  refine ⟨hok, ?_⟩
  intro u' hu'
  rw [getById, find?_of_filter_eq_single hfilter, Option.some.injEq] at hu'
  subst hu'
  exact ⟨rfl, rfl⟩

/-- Witness for C9: activating the sample trial account clears `isTrial`
but keeps `trialEndsAt = some 100`. -/
theorem C9_witness :
    sampleUser.hasSubscription = false ∧
    ∀ u', getById (svcActivateSubscription [sampleUser] sampleId 10 6).2
        sampleId = some u' →
      u'.isTrial = false ∧ u'.trialEndsAt = sampleUser.trialEndsAt :=
  ⟨by decide, (C9_activation_clears_trial_flag_keeps_timestamp [sampleUser]
    sampleUser sampleId 10 6 (by decide) (by decide) (by decide) (by decide)
    (by decide) (by decide)).2⟩

/-- **C10.** Every successful `ActivateSubscription` and every successful
`RenewSubscription` increases `totalCoinsPurchased` by exactly 5000 in
addition to increasing `coinsBalance` by 5000: the fixed bonus goes through
`AddCoinsAtomic`, the same primitive that records purchases, so
`totalCoinsPurchased` counts bonus coins too. -/
theorem C10_bonus_counted_as_purchased :
    (∀ (db : Store) (u : User) (id : String) (duration : GoDuration)
        (now : Timestamp), id ≠ "" → uuidParseOk id = true →
      db.filter (fun v => v.id == id) = [u] → u.hasSubscription = false →
      0 < duration → duration ≤ MaxSubscriptionDurationHours * nsPerHour →
      (svcActivateSubscription db id duration now).1 = none ∧
      ∀ u', getById (svcActivateSubscription db id duration now).2 id = some u' →
        u'.totalCoinsPurchased = u.totalCoinsPurchased + 5000 ∧
        u'.coinsBalance = u.coinsBalance + 5000) ∧
    (∀ (db : Store) (u : User) (id : String) (duration : GoDuration)
        (now : Timestamp), id ≠ "" → uuidParseOk id = true →
      db.filter (fun v => v.id == id) = [u] → u.hasSubscription = true →
      0 < duration → duration ≤ MaxSubscriptionDurationHours * nsPerHour →
      (svcRenewSubscription db id duration now).1 = none ∧
      ∀ u', getById (svcRenewSubscription db id duration now).2 id = some u' →
        u'.totalCoinsPurchased = u.totalCoinsPurchased + 5000 ∧
        u'.coinsBalance = u.coinsBalance + 5000) := by
  constructor
  · intro db u id duration now hid huuid hpk hsub hlo hhi
    obtain ⟨hok, hfilter⟩ :=
      svcActivateSubscription_success now hid huuid hpk hsub hlo hhi
    refine ⟨hok, ?_⟩
    intro u' hu'
    rw [getById, find?_of_filter_eq_single hfilter, Option.some.injEq] at hu'
    subst hu'
    exact ⟨rfl, rfl⟩
  · intro db u id duration now hid huuid hpk hsub hlo hhi
    obtain ⟨hok, hfilter⟩ :=
      svcRenewSubscription_success now hid huuid hpk hsub hlo hhi
    refine ⟨hok, ?_⟩
    intro u' hu'
    rw [getById, find?_of_filter_eq_single hfilter, Option.some.injEq] at hu'
    subst hu'
    exact ⟨rfl, rfl⟩

/-- Witness for C10: a concrete successful activation takes the sample
account's `totalCoinsPurchased` from 0 to 5000, and a concrete successful
renewal does the same on the subscribed variant. -/
theorem C10_witness :
    (∀ u', getById (svcActivateSubscription [sampleUser] sampleId 10 6).2
        sampleId = some u' →
      u'.totalCoinsPurchased = sampleUser.totalCoinsPurchased + 5000 ∧
      u'.coinsBalance = sampleUser.coinsBalance + 5000) ∧
    (∀ u', getById (svcRenewSubscription [sampleSubUser] sampleId 10 6).2
        sampleId = some u' →
      u'.totalCoinsPurchased = sampleSubUser.totalCoinsPurchased + 5000 ∧
      u'.coinsBalance = sampleSubUser.coinsBalance + 5000) :=
  ⟨(C10_bonus_counted_as_purchased.1 [sampleUser] sampleUser sampleId 10 6
      (by decide) (by decide) (by decide) (by decide) (by decide) (by decide)).2,
   (C10_bonus_counted_as_purchased.2 [sampleSubUser] sampleSubUser sampleId 10 6
      (by decide) (by decide) (by decide) (by decide) (by decide) (by decide)).2⟩
